import Mathlib

/-
Verification of the `automated_click` control loop.

This development gives a shallow embedding of the pure decision logic of the
repository (src/langgraph_app/state_utils.py and the pure fragments of
src/langgraph_app/automation_graph.py and src/langgraph_app/llm_components.py)
and proves properties of that logic.

External collaborators (the Playwright browser, the vision-language model, the
Python `re` engine and `urllib.parse.urlparse`) are modelled as inputs: the set
of regex matches and the parsed hostname are passed to the embedded functions
as arguments, and the outcome of a model call is an explicit inductive value.
Python floats are modelled as rationals (all constants involved - 0.08, 0.4,
0.5, 0.6, 0.75, 0.8 - and all comparisons in the claims are exact in ℚ).
Python dict fields read with falsy `.get` defaults are modelled as total
structure fields whose value is the corresponding default when the key would
be absent.
-/

namespace AutomatedClick

/-! ## Generic helpers (string containment, hex parsing, popcount) -/

/-- Does the first list begin with the second one?  Used to embed Python's
`needle in haystack` substring test. -/
def listBeginsWith : List Char → List Char → Bool
  | _, [] => true
  | [], _ :: _ => false
  | a :: as, b :: bs => a == b && listBeginsWith as bs

/-- Python's `needle in haystack` on strings, as a scan over characters. -/
def listContainsSub : List Char → List Char → Bool
  | [], needle => needle.isEmpty
  | c :: rest, needle => listBeginsWith (c :: rest) needle || listContainsSub rest needle

/-- `strContainsSub hay needle` embeds Python's `needle in hay`. -/
def strContainsSub (hay needle : String) : Bool :=
  listContainsSub hay.data needle.data

/-- Python's `str.lower()` (character-wise ASCII case mapping, the identity
on every CJK character occurring in the source's tables, where the two
agree). -/
def strToLower (s : String) : String :=
  ⟨s.data.map Char.toLower⟩

/-- Value of one hexadecimal digit; embeds the digit handling of Python's
`int(s, 16)` (the source only ever feeds valid hex produced by
`state_utils._average_hash`, so other characters never occur there). -/
def hexDigitVal (c : Char) : Nat :=
  if '0' ≤ c ∧ c ≤ '9' then c.toNat - 48
  else if 'a' ≤ c ∧ c ≤ 'f' then c.toNat - 87
  else if 'A' ≤ c ∧ c ≤ 'F' then c.toNat - 55
  else 0

/-- Embeds Python's `int(s, 16)` on the hex strings produced by the source. -/
def hexToNat (s : String) : Nat :=
  s.data.foldl (fun acc c => acc * 16 + hexDigitVal c) 0

/-- Fuel-driven binary popcount; `bitCountAux n n` counts the one bits of `n`
(the fuel `n` always suffices since the argument halves at each step). -/
def bitCountAux : Nat → Nat → Nat
  | 0, _ => 0
  | fuel + 1, n => if n = 0 then 0 else n % 2 + bitCountAux fuel (n / 2)

/-- Number of one bits of `n`; embeds Python's `bin(n).count("1")`. -/
def bitCount (n : Nat) : Nat := bitCountAux n n

/-- Python truthiness of an optional string: `None` and `""` are falsy. -/
def optStrFalsy : Option String → Bool
  | none => true
  | some s => s.isEmpty

/-! ## state_utils.py: views, comparison, failure classes, history, loops -/

/-- The `meta` sub-dictionary of a view payload, with the fields read by the
control loop (`build_view_payload` in state_utils.py always fills them;
`dict.get` on a hand-made view may yield `None`, hence the options). -/
structure ViewMeta where
  sha1 : Option String
  ahash : Option String
  timestamp : Option String
  url : Option String
deriving DecidableEq

/-- A view payload.  Only `meta` is consulted by the embedded logic; a Python
view whose `meta` key is missing behaves as a meta with all fields `None`. -/
structure View where
  meta : ViewMeta
deriving DecidableEq

/-- `state_utils.ViewComparison`. -/
structure ViewComparison where
  changed : Bool
  similarity : ℚ
  hash_equal : Bool
  reason : String
  distance : ℚ
deriving DecidableEq

/-- `state_utils._hamming_distance`: `None` when either hash is falsy
(`None` or empty), else the popcount of the xor of the hex values. -/
def hammingDistance (a b : Option String) : Option Nat :=
  match a, b with
  | some x, some y =>
      if x.isEmpty || y.isEmpty then none
      else some (bitCount (Nat.xor (hexToNat x) (hexToNat y)))
  | _, _ => none

/-- `_NO_CHANGE_THRESHOLD = 0.08`. -/
def noChangeThreshold : ℚ := 8 / 100

/-- `_HASH_SIZE * _HASH_SIZE = 64` perceptual-hash bits. -/
def maxHashBits : ℚ := 64

/-- `state_utils.compare_views`, translated clause by clause: missing view,
then hash extraction, then the missing-perceptual-hash early return, then the
exact-hash short circuit, then the thresholded perceptual distance. -/
def compare_views (prev curr : Option View) : ViewComparison :=
  match prev, curr with
  | some p, some c =>
      let hash_equal : Bool := p.meta.sha1 == c.meta.sha1
      match hammingDistance p.meta.ahash c.meta.ahash with
      | none => ⟨true, 0, hash_equal, "缺少哈希信息", 1⟩
      | some d =>
          let normalized : ℚ := (d : ℚ) / maxHashBits
          let changed : Bool := decide (noChangeThreshold ≤ normalized)
          let similarity : ℚ := max 0 (1 - normalized)
          if hash_equal then ⟨false, 1, true, "截图完全一致", 0⟩
          else ⟨changed, similarity, false,
                if changed then "视觉变化显著" else "视觉变化不足", normalized⟩
  | _, _ => ⟨true, 0, false, "缺少比较视图", 1⟩

/-- `state_utils.FailureType`. -/
inductive FailureType where
  | logical
  | transient
  | visual_stale
  | loop
  | unclassified
deriving DecidableEq

/-- Keyword table for logical failures in `classify_failure`. -/
def logicalKeywords : List String :=
  ["missing", "不存在", "未找到", "缺少", "无效", "not found", "invalid"]

/-- Keyword table for transient failures in `classify_failure`. -/
def transientKeywords : List String :=
  ["超时", "timeout", "网络", "失败", "exception", "异常", "retry"]

/-- The keyword cascade of `classify_failure` after the stale check. -/
def classifyByKeywords (msg : String) : FailureType :=
  if logicalKeywords.any (fun k => strContainsSub msg k) then .logical
  else if transientKeywords.any (fun k => strContainsSub msg k) then .transient
  else .unclassified

/-- `state_utils.classify_failure`. -/
def classify_failure (message : String) (comparison : Option ViewComparison) : FailureType :=
  let msg := strToLower message
  match comparison with
  | some c => if !c.changed then .visual_stale else classifyByKeywords msg
  | none => classifyByKeywords msg

/-- `state_utils.should_force_correction`. -/
def should_force_correction : Option FailureType → Bool
  | some .logical => true
  | some .visual_stale => true
  | some .loop => true
  | _ => false

/-- A history entry as built by `update_history`. -/
structure HistoryEntry where
  view_hash : Option String
  action_type : String
  step : String
  timestamp : Option String
  url : Option String
deriving DecidableEq

/-- The entry dictionary built inside `update_history`. -/
def historyEntryOf (view_hash : Option String) (action_type step_description : String)
    (view_meta : Option ViewMeta) : HistoryEntry :=
  { view_hash := view_hash
    action_type := action_type
    step := step_description
    timestamp := view_meta.bind (fun m => m.timestamp)
    url := view_meta.bind (fun m => m.url) }

/-- `state_utils.update_history` (the source default is `limit = 5`; here the
limit is an explicit argument instantiated at 5 in the theorems).  A falsy
view hash leaves the history untouched; otherwise the last `limit - 1`
entries are kept and the new entry appended. -/
def update_history (history : List HistoryEntry) (view_hash : Option String)
    (action_type step_description : String) (view_meta : Option ViewMeta)
    (limit : Nat) : List HistoryEntry :=
  if optStrFalsy view_hash then history
  else
    let updated := if 1 < limit then history.drop (history.length - (limit - 1)) else []
    updated ++ [historyEntryOf view_hash action_type step_description view_meta]

/-- The alert dictionary returned by `detect_visual_loop`. -/
structure LoopAlert where
  loop_detected : Bool
  repeat_step : String
  message : String
  history_index : Nat
deriving DecidableEq

/-- First index (with its entry) in the scanned slice whose `view_hash` equals
the current hash; embeds the `for idx, entry in enumerate(recent)` loop. -/
def findLoopHit : List HistoryEntry → String → Option (Nat × HistoryEntry)
  | [], _ => none
  | e :: rest, c =>
      if e.view_hash = some c then some (0, e)
      else (findLoopHit rest c).map (fun p => (p.1 + 1, p.2))

/-- `state_utils.detect_visual_loop` (source default `window = 4`, passed
explicitly here).  `history[-window:]` is `drop (length - window)` for a
positive window, and the whole history when `window = 0` (Python `-0`). -/
def detect_visual_loop (history : List HistoryEntry) (current_hash : Option String)
    (window : Nat) : Option LoopAlert :=
  if optStrFalsy current_hash || history.isEmpty then none
  else
    match current_hash with
    | none => none
    | some c =>
        let recent := if window = 0 then history else history.drop (history.length - window)
        match findLoopHit recent c with
        | none => none
        | some hit =>
            some { loop_detected := true
                   repeat_step := hit.2.step
                   message := "检测到视觉状态重复，可能陷入循环"
                   history_index := history.length - recent.length + hit.1 }

/-! ## automation_graph.py / llm_components.py: verification records -/

/-- The verification dictionary threaded through `AutomationState`.  Keys read
with falsy `.get` defaults in the source (`completed`, `confidence`, `status`
defaulting to `None`, `0`, `"unknown"`/`"ok"`) are total fields here. -/
structure Verification where
  completed : Bool
  should_continue : Bool
  pending_form_fields : List String
  missing_actions : List String
  next_hint : String
  reason : String
  confidence : ℚ
  status : String
deriving DecidableEq

/-- The `status="skipped"` record built in `_tools_node` before the verifier
runs (automation_graph.py lines 361-370). -/
def skippedVerification (pending : List String) : Verification :=
  { completed := false
    should_continue := true
    pending_form_fields := pending
    missing_actions := ["未执行审查"]
    next_hint := "等待下一步规划"
    reason := "尚未触发审查逻辑"
    confidence := 0
    status := "skipped" }

/-- The `status="error"` record built in `_tools_node` when
`verifier.evaluate` raises (automation_graph.py lines 387-398). -/
def errorVerification (pending : List String) (excMsg : String) : Verification :=
  { completed := false
    should_continue := true
    pending_form_fields := pending
    missing_actions := ["审查失败，建议重新截图后继续规划"]
    next_hint := "重新规划下一步操作"
    reason := "审查异常: " ++ excMsg
    confidence := 0
    status := "error" }

/-- The `status="error"` record `GoalVerifier.evaluate` returns when the
model's reply cannot be parsed (llm_components.py lines 76-86). -/
def unparseableVerification (pending : List String) : Verification :=
  { completed := false
    should_continue := true
    pending_form_fields := pending
    missing_actions := ["无法解析审查结果，建议重新获取页面状态"]
    next_hint := "等待重新规划"
    reason := "审查模型返回无法解析"
    confidence := 0
    status := "error" }

/-- Fields of a successfully parsed verifier reply; `status` is optional
because `evaluate` applies `setdefault("status", "ok")`. -/
structure ParsedVerdict where
  completed : Bool
  should_continue : Bool
  pending_form_fields : List String
  missing_actions : List String
  next_hint : String
  reason : String
  confidence : ℚ
  status : Option String
deriving DecidableEq

/-- Outcome of one `GoalVerifier.evaluate` invocation, seen from the caller:
the call raised somewhere (missing screenshot, model/request failure), the
reply parsed to nothing, or it parsed to a verdict. -/
inductive VerifierOutcome where
  | raises (msg : String)
  | unparseable (raw : String)
  | parsed (p : ParsedVerdict)
deriving DecidableEq

/-- `GoalVerifier.evaluate`: an exception propagates (`Except.error`), an
unparseable reply degrades to the error record, a parsed reply gets
`status` defaulted to `"ok"`. -/
def goalVerifierEvaluate (pending : List String) :
    VerifierOutcome → Except String Verification
  | .raises msg => .error msg
  | .unparseable _ => .ok (unparseableVerification pending)
  | .parsed p =>
      .ok { completed := p.completed
            should_continue := p.should_continue
            pending_form_fields := p.pending_form_fields
            missing_actions := p.missing_actions
            next_hint := p.next_hint
            reason := p.reason
            confidence := p.confidence
            status := p.status.getD "ok" }

/-- The `skip_verifier` condition of `_tools_node` (lines 372-376). -/
def skipVerifierCond (success : Bool) (action_type : String) : Bool :=
  !success || action_type == "wait" || action_type == "press_key"
    || (action_type == "navigate" && success)

/-- The verification record `_tools_node` ends up with: the skipped record
when the verifier is not invoked, otherwise `evaluate`'s result with a raised
exception caught and turned into the error record (lines 361-398). -/
def toolsVerification (success : Bool) (action_type : String) (pending : List String)
    (outcome : VerifierOutcome) : Verification :=
  if skipVerifierCond success action_type then skippedVerification pending
  else
    match goalVerifierEvaluate pending outcome with
    | .ok v => v
    | .error msg => errorVerification pending msg

/-! ## automation_graph.py: goal heuristic matcher -/

/-- The payload built by `_heuristic_goal_match`; `domain` and `confidence`
are only present on a match, hence the options. -/
structure HeuristicMatch where
  matched : Bool
  url : Option String
  reason : String
  expected_domains : List String
  domain : Option String
  confidence : Option ℚ
deriving DecidableEq

/-- `_KNOWN_SITE_KEYWORDS`, in source order. -/
def knownSiteKeywords : List (String × String) :=
  [("百度", "baidu.com"), ("谷歌", "google.com"), ("google", "google.com"),
   ("淘宝", "taobao.com"), ("京东", "jd.com"), ("拼多多", "pinduoduo.com"),
   ("抖音", "douyin.com"), ("知乎", "zhihu.com"), ("微信", "weixin.qq.com"),
   ("微博", "weibo.com"), ("b站", "bilibili.com"), ("哔哩", "bilibili.com"),
   ("小红书", "xiaohongshu.com"), ("苹果", "apple.com"), ("iphone", "apple.com"),
   ("apple", "apple.com"), ("youtube", "youtube.com"), ("twitter", "twitter.com"),
   ("推特", "twitter.com"), ("instagram", "instagram.com")]

/-- `_extract_domains_from_goal`.  `regexDomains` stands for the lower-cased
group-1 matches of `_DOMAIN_PATTERN.finditer(goal)` (the Python `re` engine is
an external collaborator, so its output is an input here); the keyword half of
the set is computed from the source's lookup table.  The Python set is
modelled as a deduplicated list. -/
def extract_domains_from_goal (regexDomains : List String) (goal : String) :
    List String :=
  let lowerGoal := strToLower goal
  let fromKeywords := knownSiteKeywords.filterMap
    (fun kv => if strContainsSub lowerGoal (strToLower kv.1) then some kv.2 else none)
  (regexDomains ++ fromKeywords).dedup

/-- `_heuristic_goal_match`.  `hostname` stands for
`urlparse(current_url).hostname` (urlparse is external).  The source
lower-cases the host, requires a non-empty expected-domain set, and reports a
match with confidence 0.8 when some expected domain is a substring of the
host. -/
def heuristic_goal_match (goal : String) (regexDomains : List String)
    (current_url : Option String) (hostname : Option String) : HeuristicMatch :=
  if optStrFalsy current_url then
    { matched := false, url := current_url, reason := "缺少当前 URL"
      expected_domains := [], domain := none, confidence := none }
  else
    let host := strToLower (hostname.getD "")
    if host.isEmpty then
      { matched := false, url := current_url, reason := "当前 URL 缺少域名"
        expected_domains := [], domain := none, confidence := none }
    else
      let expected := extract_domains_from_goal regexDomains goal
      if expected.isEmpty then
        { matched := false, url := current_url, reason := "用户目标中未识别到目标域"
          expected_domains := expected, domain := none, confidence := none }
      else
        match expected.find? (fun d => !d.isEmpty && strContainsSub host d) with
        | some d =>
            { matched := true, url := current_url
              reason := "当前域名 " ++ host ++ " 匹配目标 " ++ d
              expected_domains := expected, domain := some d
              confidence := some (4 / 5) }
        | none =>
            { matched := false, url := current_url
              reason := "当前域名 " ++ host ++ " 未匹配目标域"
              expected_domains := expected, domain := none, confidence := none }

/-- The heuristic-override block of `_tools_node` (lines 410-433): when the
match fired, the verdict is replaced iff it is not completed, or its status is
error/skipped/unknown, or its confidence is below 0.4. -/
def applyHeuristicOverride (v : Verification) (m : HeuristicMatch) : Verification :=
  if m.matched then
    let shouldOverride : Bool :=
      !v.completed || v.status == "error" || v.status == "skipped"
        || v.status == "unknown" || decide (v.confidence < 2 / 5)
    if shouldOverride then
      { v with
        completed := true
        should_continue := false
        reason := m.reason
        missing_actions := []
        next_hint := "任务目标已满足（启发式判定）"
        confidence := max v.confidence (m.confidence.getD (3 / 4))
        status := "heuristic" }
    else v
  else v

/-! ## automation_graph.py: end gate, router, attempt counter, tools outcome -/

/-- The status-dependent confidence floor (0.6 for `ok`, 0.5 otherwise, the
otherwise branch only being reached for `heuristic`). -/
def requiredConfidence (status : String) : ℚ :=
  if status == "ok" then 3 / 5 else 1 / 2

/-- The `allow_end` computation of `_agent_node` (lines 126-133):
unconditionally true unless the status is `ok` or `heuristic`, in which case
the verdict must be completed with confidence at or above the floor. -/
def allowEnd (v : Verification) : Bool :=
  if v.status = "ok" ∨ v.status = "heuristic" then
    v.completed && decide (requiredConfidence v.status ≤ v.confidence)
  else true

/-- The decision triple produced by a parsed planner reply. -/
structure PlanDecision where
  decision : String
  action_type : String
  action_params : List (String × Nat)
deriving DecidableEq

/-- The end-gate of `_agent_node` (lines 135-140): an `end` decision that is
not allowed is overridden to `tools`, and a `finish` action is coerced to a
1500 ms wait. -/
def applyEndGate (p : PlanDecision) (v : Verification) : PlanDecision :=
  if p.decision == "end" && !allowEnd v then
    if p.action_type == "finish" then
      { p with decision := "tools", action_type := "wait",
               action_params := [("timeout", 1500)] }
    else { p with decision := "tools" }
  else p

/-- The conditional-edge `router` of `build_automation_graph`
(lines 504-517): re-checks the same gate on an `end` decision. -/
def routerDecision (decision : String) (v : Verification) : String :=
  if decision == "end" then
    if (v.status = "ok" ∨ v.status = "heuristic")
        && !(v.completed && decide (requiredConfidence v.status ≤ v.confidence)) then
      "tools"
    else "end"
  else decision

/-- `attempt = min(state.attempt_count + 1, max_attempts)` with
`max_attempts = 5` (line 202). -/
def clampAttempt (prev : Nat) : Nat := min (prev + 1) 5

/-- The `verified_success` computation (lines 435-440): only an `ok` or
`heuristic` status can verify, and then tool success and completion are both
required. -/
def verifiedSuccess (success : Bool) (v : Verification) : Bool :=
  if v.status = "ok" then success && v.completed
  else if v.status = "heuristic" then success && v.completed
  else false

/-- `next_attempt = 0 if verified_success else (0 if correction_required else
attempt)` (line 460). -/
def nextAttemptCount (verified correction : Bool) (attempt : Nat) : Nat :=
  if verified then 0 else if correction then 0 else attempt

/-- The outcome-reclassification block of `_tools_node` (lines 329-343):
a successful action on an unchanged page is downgraded to a `visual_stale`
failure, a loop alert downgrades to a `loop` failure, and a remaining
unexplained failure is sent to the keyword classifier.  Returns the final
(success, message, failure type) triple. -/
def toolsClassify (success : Bool) (message : String) (comparison : ViewComparison)
    (loop_alert : Option LoopAlert) : Bool × String × Option FailureType :=
  let step1 :=
    if success && !comparison.changed then
      (false, message ++ " | 页面未发生明显变化", some FailureType.visual_stale)
    else (success, message, (none : Option FailureType))
  let step2 :=
    if loop_alert.isSome then
      (false, step1.2.1 ++ " | 检测到循环，需要改变策略", some FailureType.loop)
    else step1
  if step2.1 = false ∧ step2.2.2 = none then
    (step2.1, step2.2.1, some (classify_failure step2.2.1 (some comparison)))
  else step2

/-- `correction_required = should_force_correction(failure_type) or
bool(loop_alert)` (line 344). -/
def correctionRequired (ft : Option FailureType) (loop_alert : Option LoopAlert) : Bool :=
  should_force_correction ft || loop_alert.isSome

/-- The `last_failure` dictionary built at lines 462-469 (a non-`None` value
is always a non-empty dict, so Python truthiness is `Option.isSome`). -/
structure FailureRecord where
  failureType : Option String
  message : String
  action : String
  attempt : Nat
deriving DecidableEq

/-- The cache-hit condition of `_agent_node` (lines 71-78): a cached plan is
returned only when correction is not required, the key is cached, there is no
recorded failure, and the attempt count is zero. -/
def usesPlanCache (correction_required cacheHit : Bool)
    (last_failure : Option FailureRecord) (attempt_count : Nat) : Bool :=
  !correction_required && cacheHit && last_failure.isNone && (attempt_count == 0)

/-! ## Helper lemmas -/

lemma allowEnd_false_of (v : Verification)
    (hs : v.status = "ok" ∨ v.status = "heuristic")
    (hg : ¬(v.completed = true ∧ requiredConfidence v.status ≤ v.confidence)) :
    allowEnd v = false := by
  unfold allowEnd
  rw [if_pos hs]
  cases hc : v.completed with
  | false => simp
  | true =>
      simp only [Bool.true_and]
      exact decide_eq_false (fun hle => hg ⟨hc, hle⟩)

lemma allowEnd_true_of_status (v : Verification)
    (h1 : v.status ≠ "ok") (h2 : v.status ≠ "heuristic") :
    allowEnd v = true := by
  unfold allowEnd
  rw [if_neg]
  rintro (h | h)
  · exact h1 h
  · exact h2 h

lemma allowEnd_true_of_gate (v : Verification) (hc : v.completed = true)
    (hle : requiredConfidence v.status ≤ v.confidence) :
    allowEnd v = true := by
  unfold allowEnd
  split
  · rw [hc, decide_eq_true hle]; rfl
  · rfl

lemma routerDecision_end (v : Verification) :
    routerDecision "end" v = if allowEnd v then "end" else "tools" := by
  unfold routerDecision allowEnd
  by_cases hs : v.status = "ok" ∨ v.status = "heuristic" <;>
    cases hcg : (v.completed && decide (requiredConfidence v.status ≤ v.confidence)) <;>
      simp [hs, hcg]

lemma applyEndGate_eq (p : PlanDecision) (v : Verification) :
    applyEndGate p v =
      if p.decision = "end" ∧ allowEnd v = false then
        if p.action_type = "finish" then
          { p with decision := "tools", action_type := "wait",
                   action_params := [("timeout", 1500)] }
        else { p with decision := "tools" }
      else p := by
  unfold applyEndGate
  by_cases hd : p.decision = "end" <;> cases hae : allowEnd v <;>
    by_cases hf : p.action_type = "finish" <;>
      simp [hd, hae, hf]

lemma findLoopHit_eq_none_iff (l : List HistoryEntry) (c : String) :
    findLoopHit l c = none ↔ ∀ e ∈ l, e.view_hash ≠ some c := by
  induction l with
  | nil => simp [findLoopHit]
  | cons e rest ih =>
      by_cases he : e.view_hash = some c
      · simp [findLoopHit, he]
      · simp [findLoopHit, he, Option.map_eq_none', ih]

lemma findLoopHit_some_get (l : List HistoryEntry) (c : String) (i : Nat)
    (e : HistoryEntry) (hfind : findLoopHit l c = some (i, e)) :
    l[i]? = some e ∧ e.view_hash = some c := by
  induction l generalizing i with
  | nil => simp [findLoopHit] at hfind
  | cons x rest ih =>
      unfold findLoopHit at hfind
      by_cases hx : x.view_hash = some c
      · rw [if_pos hx] at hfind
        simp only [Option.some.injEq, Prod.mk.injEq] at hfind
        obtain ⟨hi, he⟩ := hfind
        subst hi
        subst he
        exact ⟨by simp, hx⟩
      · rw [if_neg hx] at hfind
        cases hfl : findLoopHit rest c with
        | none => rw [hfl] at hfind; simp at hfind
        | some p =>
            obtain ⟨j, e'⟩ := p
            rw [hfl] at hfind
            simp only [Option.map_some', Option.some.injEq, Prod.mk.injEq] at hfind
            obtain ⟨hi, he⟩ := hfind
            subst he
            obtain ⟨hget, hhash⟩ := ih j hfl
            refine ⟨?_, hhash⟩
            rw [← hi]
            simpa using hget

/-! ## Claim C1: the end gate -/

/-- C1 counterexample: with the most recent verification in the `skipped`
state, a model-proposed `end` decision is NOT overridden back to `tools` -
both the agent-node gate and the router let it through, contradicting the
claim that any status other than `ok`/`heuristic` blocks `end`. -/
theorem end_allowed_on_skipped_status :
    (skippedVerification []).status = "skipped" ∧
    applyEndGate ⟨"end", "finish", []⟩ (skippedVerification [])
      = ⟨"end", "finish", []⟩ ∧
    routerDecision "end" (skippedVerification []) = "end" := by
  decide

/-- C1 (amended): a model-proposed `end` decision is overridden back to
`tools` (a `finish` action coerced to a 1500 ms wait) exactly when the most
recent verification status is `ok` or `heuristic` and the verification does
not report completed=true with confidence at least 0.6 (`ok`) / 0.5
(`heuristic`); for any other status (`skipped`, `error`, `unknown`) and
whenever the completed/confidence gate passes, the `end` decision is allowed
through unchanged, by both the agent node and the router. -/
theorem end_gate_characterization (p : PlanDecision) (v : Verification)
    (hp : p.decision = "end") :
    ((v.status = "ok" ∨ v.status = "heuristic") →
      ¬(v.completed = true ∧ requiredConfidence v.status ≤ v.confidence) →
      (applyEndGate p v).decision = "tools" ∧
      routerDecision p.decision v = "tools" ∧
      (p.action_type = "finish" →
        (applyEndGate p v).action_type = "wait" ∧
        (applyEndGate p v).action_params = [("timeout", 1500)])) ∧
    (v.status ≠ "ok" → v.status ≠ "heuristic" →
      applyEndGate p v = p ∧ routerDecision p.decision v = "end") ∧
    (v.completed = true → requiredConfidence v.status ≤ v.confidence →
      applyEndGate p v = p ∧ routerDecision p.decision v = "end") := by
  refine ⟨fun hs hg => ?_, fun h1 h2 => ?_, fun hc hle => ?_⟩
  · have hae := allowEnd_false_of v hs hg
    refine ⟨?_, ?_, fun hf => ?_⟩
    · rw [applyEndGate_eq, if_pos ⟨hp, hae⟩]
      by_cases hf : p.action_type = "finish" <;> simp [hf]
    · rw [hp, routerDecision_end, hae]; rfl
    · rw [applyEndGate_eq, if_pos ⟨hp, hae⟩, if_pos hf]
      exact ⟨rfl, rfl⟩
  · have hae := allowEnd_true_of_status v h1 h2
    refine ⟨?_, ?_⟩
    · rw [applyEndGate_eq, if_neg]
      rintro ⟨-, hcon⟩
      rw [hae] at hcon
      exact Bool.noConfusion hcon
    · rw [hp, routerDecision_end, hae]; rfl
  · have hae := allowEnd_true_of_gate v hc hle
    refine ⟨?_, ?_⟩
    · rw [applyEndGate_eq, if_neg]
      rintro ⟨-, hcon⟩
      rw [hae] at hcon
      exact Bool.noConfusion hcon
    · rw [hp, routerDecision_end, hae]; rfl

/-- Witness for `end_gate_characterization`: an `end` decision on an
`error`-status verification passes through unchanged. -/
theorem end_gate_characterization_witness :
    applyEndGate ⟨"end", "finish", []⟩ (unparseableVerification [])
      = ⟨"end", "finish", []⟩ := by
  have h := end_gate_characterization ⟨"end", "finish", []⟩
    (unparseableVerification []) rfl
  exact (h.2.1 (by decide) (by decide)).1

/-! ## Claim C2: the heuristic override -/

/-- The heuristic match the tools node computes for goal `打开百度` on the
Baidu host (the regex collaborator finds no ASCII domain in the goal). -/
def baiduMatch : HeuristicMatch :=
  heuristic_goal_match "打开百度" [] (some "https://www.baidu.com/s")
    (some "www.baidu.com")

/-- A high-confidence explicit "not completed" verifier verdict. -/
def highConfNotCompleted : Verification :=
  { completed := false
    should_continue := true
    pending_form_fields := []
    missing_actions := ["继续填写表单"]
    next_hint := "继续操作"
    reason := "页面显示任务尚未完成"
    confidence := 19 / 20
    status := "ok" }

/-- C2 counterexample: the heuristic match (matched=true, confidence 0.8)
DOES override a Verifier verdict with status `ok`, completed=false and
confidence 0.95 - the override condition fires on `not completed` alone, so a
high-confidence explicit "not completed" judgment is not left unchanged. -/
theorem high_conf_not_completed_overridden :
    baiduMatch.matched = true ∧
    highConfNotCompleted.status = "ok" ∧
    highConfNotCompleted.completed = false ∧
    (9 / 10 : ℚ) ≤ highConfNotCompleted.confidence ∧
    (applyHeuristicOverride highConfNotCompleted baiduMatch).completed = true ∧
    (applyHeuristicOverride highConfNotCompleted baiduMatch).status = "heuristic" := by
  have hm : baiduMatch.matched = true := by decide
  refine ⟨hm, rfl, rfl, by norm_num [highConfNotCompleted], ?_, ?_⟩ <;>
    simp [applyHeuristicOverride, hm, highConfNotCompleted]

/-- C2 (amended): when the heuristic matcher reports matched=true, the
heuristic result replaces the verification verdict exactly when the verdict
is not completed, or has status `error`/`skipped`/`unknown`, or has
confidence below 0.4 - in particular it does override a high-confidence
status-`ok` "not completed" judgment; only a completed verdict with status
outside that set and confidence at least 0.4 is left unchanged. -/
theorem heuristic_override_characterization (v : Verification)
    (m : HeuristicMatch) (hm : m.matched = true) :
    ((v.completed = false ∨ v.status = "error" ∨ v.status = "skipped"
        ∨ v.status = "unknown" ∨ v.confidence < 2 / 5) →
      applyHeuristicOverride v m =
        { v with
          completed := true
          should_continue := false
          reason := m.reason
          missing_actions := []
          next_hint := "任务目标已满足（启发式判定）"
          confidence := max v.confidence (m.confidence.getD (3 / 4))
          status := "heuristic" }) ∧
    ((v.completed = true ∧ v.status ≠ "error" ∧ v.status ≠ "skipped"
        ∧ v.status ≠ "unknown" ∧ 2 / 5 ≤ v.confidence) →
      applyHeuristicOverride v m = v) := by
  constructor
  · intro h
    have hov : (!v.completed || v.status == "error" || v.status == "skipped"
        || v.status == "unknown" || decide (v.confidence < 2 / 5)) = true := by
      rcases h with h | h | h | h | h <;> simp [h]
    unfold applyHeuristicOverride
    rw [hm]
    simp only [if_true]
    rw [hov]
    rfl
  · rintro ⟨hc, h1, h2, h3, h5⟩
    have hnl : ¬(v.confidence < 2 / 5) := not_lt.mpr h5
    have hov : (!v.completed || v.status == "error" || v.status == "skipped"
        || v.status == "unknown" || decide (v.confidence < 2 / 5)) = false := by
      simp [hc, h1, h2, h3, hnl]
    unfold applyHeuristicOverride
    rw [hm]
    simp only [if_true]
    rw [hov]
    rfl

/-- Witness for `heuristic_override_characterization`: a completed,
status-`ok`, confidence-1 verdict is left unchanged by the Baidu match. -/
theorem heuristic_override_characterization_witness :
    applyHeuristicOverride
      ⟨true, false, [], [], "", "任务完成", 1, "ok"⟩ baiduMatch
      = ⟨true, false, [], [], "", "任务完成", 1, "ok"⟩ := by
  have h := heuristic_override_characterization
    ⟨true, false, [], [], "", "任务完成", 1, "ok"⟩ baiduMatch (by decide)
  exact h.2 ⟨rfl, by decide, by decide, by decide, by norm_num⟩

/-! ## Claim C3: exact-hash equality in compare_views -/

/-- A view carrying an exact hash but no perceptual hash. -/
def shaOnlyView : View := ⟨⟨some "aa", none, none, none⟩⟩

/-- C3 counterexample: two non-absent views with equal sha1 but no perceptual
hash compare as changed=true with similarity 0.0 - the missing-hash early
return preempts the exact-hash short circuit, so equal exact hashes do NOT
force changed=false regardless of the perceptual hashes. -/
theorem equal_sha1_missing_ahash_changed :
    (compare_views (some shaOnlyView) (some shaOnlyView)).hash_equal = true ∧
    (compare_views (some shaOnlyView) (some shaOnlyView)).changed = true ∧
    (compare_views (some shaOnlyView) (some shaOnlyView)).similarity = 0 := by
  decide

/-- C3 (amended): for every pair of non-absent views that both carry a
non-empty perceptual hash, equal sha1 forces changed=false and
similarity=1.0; when either perceptual hash is missing or empty the
comparator instead reports changed=true with similarity 0.0 even if the
exact hashes are equal. -/
theorem compare_views_sha1_equal (p c : View) (x y : String)
    (hpa : p.meta.ahash = some x) (hca : c.meta.ahash = some y)
    (hx : x.isEmpty = false) (hy : y.isEmpty = false)
    (hsha : p.meta.sha1 = c.meta.sha1) :
    compare_views (some p) (some c) = ⟨false, 1, true, "截图完全一致", 0⟩ := by
  have hd : hammingDistance p.meta.ahash c.meta.ahash
      = some (bitCount (Nat.xor (hexToNat x) (hexToNat y))) := by
    rw [hpa, hca]
    simp [hammingDistance, hx, hy]
  simp only [compare_views, hd, hsha, beq_self_eq_true, if_true]

/-- Witness for `compare_views_sha1_equal` at two concrete identical views. -/
theorem compare_views_sha1_equal_witness :
    compare_views (some ⟨⟨some "ab", some "ff", none, none⟩⟩)
        (some ⟨⟨some "ab", some "ff", none, none⟩⟩)
      = ⟨false, 1, true, "截图完全一致", 0⟩ :=
  compare_views_sha1_equal _ _ "ff" "ff" rfl rfl rfl rfl rfl

/-! ## Claim C4: successful wait on an unchanged page -/

/-- A complete static-page view (both hashes present), captured twice. -/
def staticPageView : View :=
  ⟨⟨some "da39a3ee5e6b4b0d", some "ffee0011aabbccdd", none, some "https://example.com"⟩⟩

/-- C4, evaluated at the failing input: a `wait` that reported success
(`页面加载完成`) while the captures are byte-identical (`hashEqual=true`) IS
downgraded by the tools-node classification to `success=false` with category
`visual_stale`, and correction is forced - the code has no exemption for
actions that genuinely make no on-page change. -/
theorem wait_unchanged_downgraded_visual_stale :
    (compare_views (some staticPageView) (some staticPageView)).hash_equal = true ∧
    (compare_views (some staticPageView) (some staticPageView)).changed = false ∧
    toolsClassify true "页面加载完成"
        (compare_views (some staticPageView) (some staticPageView)) none
      = (false, "页面加载完成 | 页面未发生明显变化", some FailureType.visual_stale) ∧
    correctionRequired (some FailureType.visual_stale) none = true := by
  decide

/-! ## Claim C5: the attempt counter -/

/-- A comparison showing a genuine page change (as after a navigation). -/
def changedComparison : ViewComparison :=
  ⟨true, 7 / 8, false, "视觉变化显著", 1 / 8⟩

/-- C5 counterexample: a raw tool success does NOT reset the attempt counter.
A successful `navigate` (success stays true, no failure category) skips the
verifier, so the verification record has status `skipped`, `verified_success`
is false, no correction is forced, and an attempt count of 1 advances to 2
instead of resetting to 0 - the counter resets only on verified success. -/
theorem raw_success_does_not_reset_attempt :
    toolsClassify true "成功打开页面" changedComparison none
      = (true, "成功打开页面", none) ∧
    skipVerifierCond true "navigate" = true ∧
    toolsVerification true "navigate" []
        (.parsed ⟨true, false, [], [], "", "", 1, some "ok"⟩)
      = skippedVerification [] ∧
    verifiedSuccess true (skippedVerification []) = false ∧
    correctionRequired none none = false ∧
    nextAttemptCount (verifiedSuccess true (skippedVerification [])) false
        (clampAttempt 1) = 2 := by
  decide

/-- C5 (amended): the per-action attempt value is `min (prev + 1) 5`, so it
never exceeds 5; the stored counter resets to 0 on verified success or on
forced correction and otherwise carries the capped increment forward; and the
router can only ever terminate on the planner's own `end` decision - the
attempt counter plays no part in termination. -/
theorem attempt_counter_dynamics (verified correction : Bool) (prev : Nat) :
    nextAttemptCount verified correction (clampAttempt prev) ≤ 5 ∧
    (verified = true → nextAttemptCount verified correction (clampAttempt prev) = 0) ∧
    (correction = true → nextAttemptCount verified correction (clampAttempt prev) = 0) ∧
    (verified = false → correction = false →
      nextAttemptCount verified correction (clampAttempt prev) = min (prev + 1) 5) ∧
    (∀ d v, routerDecision d v = "end" → d = "end") := by
  refine ⟨?_, ?_, ?_, ?_, ?_⟩
  · cases verified <;> cases correction <;>
      simp [nextAttemptCount, clampAttempt]
  · intro h; simp [nextAttemptCount, h]
  · intro h; cases verified <;> simp [nextAttemptCount, h]
  · intro h1 h2; simp [nextAttemptCount, clampAttempt, h1, h2]
  · intro d v h
    by_cases hd : d = "end"
    · exact hd
    · unfold routerDecision at h
      rw [if_neg (by simp [hd])] at h
      exact h

/-- Witness for `attempt_counter_dynamics`: with neither verified success nor
forced correction, a prior count of 3 advances to `min 4 5`. -/
theorem attempt_counter_dynamics_witness :
    nextAttemptCount false false (clampAttempt 3) = min (3 + 1) 5 :=
  (attempt_counter_dynamics false false 3).2.2.2.1 rfl rfl

/-! ## Claim C6: bounded history update -/

/-- C6: with the default limit of 5, `update_history` yields exactly the last
four old entries followed by the new one - so it holds at most 5 entries,
evicts from the front (the result is a suffix of the appended list), ends
with the new entry, and is the identity when the view hash is `None` or
empty. -/
theorem update_history_spec (history : List HistoryEntry) (h a s : String)
    (m : Option ViewMeta) (hne : h ≠ "") :
    (update_history history (some h) a s m 5).length = min (history.length + 1) 5 ∧
    (update_history history (some h) a s m 5).length ≤ 5 ∧
    update_history history (some h) a s m 5
      = (history ++ [historyEntryOf (some h) a s m]).drop (history.length - 4) ∧
    (update_history history (some h) a s m 5).getLast?
      = some (historyEntryOf (some h) a s m) ∧
    update_history history none a s m 5 = history ∧
    update_history history (some "") a s m 5 = history := by
  have hfal : optStrFalsy (some h) = false := by
    simp only [optStrFalsy]
    cases hemp : h.isEmpty with
    | false => rfl
    | true => exact absurd ((String.isEmpty_iff h).mp hemp) hne
  have hbody : update_history history (some h) a s m 5
      = history.drop (history.length - 4) ++ [historyEntryOf (some h) a s m] := by
    unfold update_history
    rw [hfal]
    norm_num
  refine ⟨?_, ?_, ?_, ?_, ?_, ?_⟩
  · rw [hbody]
    simp [List.length_append, List.length_drop]
    omega
  · rw [hbody]
    simp [List.length_append, List.length_drop]
    omega
  · rw [hbody, List.drop_append_of_le_length (Nat.sub_le _ _)]
  · rw [hbody, List.getLast?_concat]
  · unfold update_history
    rfl
  · unfold update_history
    rfl

/-- Witness for `update_history_spec` on a singleton history. -/
theorem update_history_spec_witness :
    update_history [historyEntryOf (some "h0") "click" "第一步" none]
        (some "h1") "type" "第二步" none 5
      = ([historyEntryOf (some "h0") "click" "第一步" none]
          ++ [historyEntryOf (some "h1") "type" "第二步" none]).drop
          (List.length [historyEntryOf (some "h0") "click" "第一步" none] - 4) :=
  (update_history_spec [historyEntryOf (some "h0") "click" "第一步" none]
    "h1" "type" "第二步" none (by decide)).2.2.1

/-! ## Claim C7: loop detection window -/

/-- C7: `detect_visual_loop` with window 4 reports nothing on an empty
history or an absent (`None`/empty) current hash; it reports nothing when no
entry among the last four matches, however many earlier entries match;
any alert it produces points (via `history_index`, an index within the last
four positions of the full history) at an entry whose hash equals the current
hash and whose step description it carries; and conversely, whenever some
entry among the last four carries the current hash, an alert IS returned. -/
theorem detect_visual_loop_spec (history : List HistoryEntry) (c : String)
    (hc : c ≠ "") :
    (∀ ch, detect_visual_loop [] ch 4 = none) ∧
    detect_visual_loop history none 4 = none ∧
    detect_visual_loop history (some "") 4 = none ∧
    ((∀ e ∈ history.drop (history.length - 4), e.view_hash ≠ some c) →
      detect_visual_loop history (some c) 4 = none) ∧
    (∀ alert, detect_visual_loop history (some c) 4 = some alert →
      alert.loop_detected = true ∧
      history.length - 4 ≤ alert.history_index ∧
      ∃ e, history[alert.history_index]? = some e ∧
        e.view_hash = some c ∧ alert.repeat_step = e.step) ∧
    ((∃ e ∈ history.drop (history.length - 4), e.view_hash = some c) →
      ∃ alert, detect_visual_loop history (some c) 4 = some alert) := by
  have hcf : optStrFalsy (some c) = false := by
    simp only [optStrFalsy]
    cases hemp : c.isEmpty with
    | false => rfl
    | true => exact absurd ((String.isEmpty_iff c).mp hemp) hc
  refine ⟨?_, ?_, ?_, ?_, ?_, ?_⟩
  · intro ch; simp [detect_visual_loop]
  · simp [detect_visual_loop, optStrFalsy]
  · have he : optStrFalsy (some "") = true := rfl
    simp [detect_visual_loop, he]
  · intro hall
    by_cases hne : history = []
    · subst hne; simp [detect_visual_loop]
    · have hni : history.isEmpty = false := by
        cases history with
        | nil => exact absurd rfl hne
        | cons x xs => rfl
      have hfind : findLoopHit (history.drop (history.length - 4)) c = none :=
        (findLoopHit_eq_none_iff _ c).mpr hall
      simp [detect_visual_loop, hcf, hni, hfind]
  · intro alert halert
    by_cases hne : history = []
    · subst hne; simp [detect_visual_loop] at halert
    · have hni : history.isEmpty = false := by
        cases history with
        | nil => exact absurd rfl hne
        | cons x xs => rfl
      cases hfind : findLoopHit (history.drop (history.length - 4)) c with
      | none => simp [detect_visual_loop, hcf, hni, hfind] at halert
      | some hit =>
          obtain ⟨i, e⟩ := hit
          have heq : detect_visual_loop history (some c) 4
              = some { loop_detected := true
                       repeat_step := e.step
                       message := "检测到视觉状态重复，可能陷入循环"
                       history_index := history.length
                         - (history.drop (history.length - 4)).length + i } := by
            simp [detect_visual_loop, hcf, hni, hfind]
          rw [heq] at halert
          obtain rfl := Option.some.inj halert
          obtain ⟨hget, hhash⟩ := findLoopHit_some_get _ _ _ _ hfind
          have hdl : (history.drop (history.length - 4)).length
              = history.length - (history.length - 4) := List.length_drop _ _
          have hidx : history.length - (history.drop (history.length - 4)).length + i
              = (history.length - 4) + i := by
            rw [hdl]; omega
          refine ⟨rfl, ?_, e, ?_, hhash, rfl⟩
          · simp only [hidx]
            exact Nat.le_add_right _ _
          · simp only [hidx, ← List.getElem?_drop]
            exact hget
  · rintro ⟨e, he, hhash⟩
    have hne : history ≠ [] := by
      intro hnil
      subst hnil
      simp at he
    have hni : history.isEmpty = false := by
      cases history with
      | nil => exact absurd rfl hne
      | cons x xs => rfl
    have hnn : findLoopHit (history.drop (history.length - 4)) c ≠ none := by
      rw [Ne, findLoopHit_eq_none_iff]
      intro hall
      exact hall e he hhash
    cases hfind : findLoopHit (history.drop (history.length - 4)) c with
    | none => exact absurd hfind hnn
    | some hit =>
        obtain ⟨i, f⟩ := hit
        refine ⟨{ loop_detected := true
                  repeat_step := f.step
                  message := "检测到视觉状态重复，可能陷入循环"
                  history_index := history.length
                    - (history.drop (history.length - 4)).length + i }, ?_⟩
        simp [detect_visual_loop, hcf, hni, hfind]

/-- Witness for `detect_visual_loop_spec`: a repeated hash inside the window
of a concrete singleton history does produce an alert. -/
theorem detect_visual_loop_spec_witness :
    ∃ alert, detect_visual_loop [historyEntryOf (some "h1") "click" "第一步" none]
        (some "h1") 4 = some alert :=
  (detect_visual_loop_spec [historyEntryOf (some "h1") "click" "第一步" none]
    "h1" (by decide)).2.2.2.2.2 (by decide)

/-! ## Claim C8: the plan cache -/

/-- C8: the planner's side cache is consulted only in a clean state - when
correction is required, or a failure is recorded, or the attempt count is
nonzero, the cache-hit condition of the agent node is false and a fresh
planning call is issued. -/
theorem cache_requires_clean_state (cr cacheHit : Bool)
    (lf : Option FailureRecord) (n : Nat)
    (h : cr = true ∨ lf ≠ none ∨ n ≠ 0) :
    usesPlanCache cr cacheHit lf n = false := by
  rcases h with h | h | h
  · simp [usesPlanCache, h]
  · cases lf with
    | none => exact absurd rfl h
    | some f => simp [usesPlanCache]
  · cases n with
    | zero => exact absurd rfl h
    | succ k => simp [usesPlanCache]

/-- Witness for `cache_requires_clean_state`: correction mode blocks the
cache even when the key is present. -/
theorem cache_requires_clean_state_witness :
    usesPlanCache true true none 0 = false :=
  cache_requires_clean_state true true none 0 (Or.inl rfl)

/-! ## Claim C9: verifier failures degrade instead of propagating -/

/-- C9: whenever the tools node actually invokes the verifier and the call
raises (model/request failure, missing screenshot) or its reply is
unparseable, the resulting verification record has status `error`,
completed=false and confidence 0 - the loop always receives a record rather
than an exception (`toolsVerification` is total). -/
theorem verifier_failure_degrades_to_error (success : Bool) (a : String)
    (pending : List String) (outcome : VerifierOutcome)
    (hskip : skipVerifierCond success a = false)
    (hfail : (∃ msg, outcome = .raises msg) ∨ (∃ raw, outcome = .unparseable raw)) :
    (toolsVerification success a pending outcome).status = "error" ∧
    (toolsVerification success a pending outcome).completed = false ∧
    (toolsVerification success a pending outcome).confidence = 0 := by
  unfold toolsVerification
  rw [hskip]
  rcases hfail with ⟨msg, rfl⟩ | ⟨raw, rfl⟩ <;>
    simp [goalVerifierEvaluate, errorVerification, unparseableVerification]

/-- Witness for `verifier_failure_degrades_to_error`: a raised model call on
a successful click degrades to the error record. -/
theorem verifier_failure_degrades_to_error_witness :
    (toolsVerification true "click" [] (.raises "连接超时")).status = "error" ∧
    (toolsVerification true "click" [] (.raises "连接超时")).completed = false ∧
    (toolsVerification true "click" [] (.raises "连接超时")).confidence = 0 :=
  verifier_failure_degrades_to_error true "click" [] (.raises "连接超时")
    (by decide) (Or.inl ⟨"连接超时", rfl⟩)

/-! ## Claim C10: goals without an extractable domain -/

/-- C10: when the domain regex finds nothing in the goal and no keyword of
the fixed lookup table occurs in the lower-cased goal, the heuristic matcher
reports matched=false for every current URL and hostname, and consequently
the heuristic override leaves every verification verdict unchanged. -/
theorem no_domains_no_heuristic_match (goal : String) (regexDomains : List String)
    (url hostname : Option String)
    (hre : regexDomains = [])
    (hkw : ∀ kv ∈ knownSiteKeywords,
      strContainsSub (strToLower goal) (strToLower kv.1) = false) :
    (heuristic_goal_match goal regexDomains url hostname).matched = false ∧
    ∀ v : Verification,
      applyHeuristicOverride v (heuristic_goal_match goal regexDomains url hostname)
        = v := by
  have hdom : extract_domains_from_goal regexDomains goal = [] := by
    subst hre
    unfold extract_domains_from_goal
    have hfm : knownSiteKeywords.filterMap
        (fun kv => if strContainsSub (strToLower goal) (strToLower kv.1)
          then some kv.2 else none) = [] :=
      List.filterMap_eq_nil_iff.mpr (fun kv hkv => by simp [hkw kv hkv])
    simp [hfm]
  have hmatched : (heuristic_goal_match goal regexDomains url hostname).matched
      = false := by
    unfold heuristic_goal_match
    cases hu : optStrFalsy url with
    | true => simp [hu]
    | false =>
        by_cases hh : (strToLower (hostname.getD "")).isEmpty = true
        · simp [hu, hh]
        · have hh' : (strToLower (hostname.getD "")).isEmpty = false := by
            cases hx : (strToLower (hostname.getD "")).isEmpty with
            | false => rfl
            | true => exact absurd hx hh
          simp [hu, hh', hdom]
  refine ⟨hmatched, fun v => ?_⟩
  simp [applyHeuristicOverride, hmatched]

/-- Witness for `no_domains_no_heuristic_match`: a browsing goal naming no
site never triggers the heuristic, even on a well-known host. -/
theorem no_domains_no_heuristic_match_witness :
    (heuristic_goal_match "随便看看新闻" [] (some "https://www.baidu.com")
        (some "www.baidu.com")).matched = false :=
  (no_domains_no_heuristic_match "随便看看新闻" [] (some "https://www.baidu.com")
    (some "www.baidu.com") rfl (by decide)).1

end AutomatedClick
